import Mathlib

/-!
Shallow embedding of the authentication core of the boredom-busters API
(NestJS/TypeScript): `AuthService` (register / login / refreshToken / logout),
`UsersService` (the credential store), `JwtStrategy` (access verifier) and
`JwtRefreshStrategy` (refresh guard), together with the `/auth/refresh`
endpoint pipeline (guard then controller then service).

Cryptographic primitives (`crypto.createHash('sha256')`, `bcrypt.hash`,
`bcrypt.compare`, JWT signing/verification) are modelled symbolically: the
string domain of the TypeScript code is embedded as an inductive type `SVal`
whose constructors record how each value was produced.  `bcrypt.compare x h`
is true exactly when `h` is a bcrypt hash of `x` (ideal, collision-free
hashing); JWT verification succeeds exactly on tokens signed with the same
secret and not yet expired.  Randomness (`crypto.randomBytes` for jti values,
bcrypt salts, uuid generation) is modelled by a fresh-value counter threaded
through the state.
-/

namespace Auth

/-- Claims carried by a signed token: `sub`, `email`, the per-token random
identifier `jti` (modelled as the fresh counter value) and the expiry
instant `exp` (issue time plus the configured ttl). -/
structure Payload where
  sub : String
  email : String
  jti : Nat
  exp : Nat
deriving DecidableEq, Repr

/-- Symbolic model of the TypeScript string domain: plain literals, SHA-256
hex digests, bcrypt hashes (with their random salt), and signed JWTs. -/
inductive SVal where
  | lit : String → SVal
  | sha256 : SVal → SVal
  | bcrypt : Nat → SVal → SVal
  | jwt : Payload → String → SVal
deriving DecidableEq, Repr

/-- Model of `bcrypt.compare(data, encrypted)`: true exactly when `encrypted`
is a bcrypt hash (under some salt) of `data`. -/
def bcryptCompare (data h : SVal) : Bool :=
  match h with
  | SVal.bcrypt _ v => decide (v = data)
  | _ => false

/-- Error classes surfaced by the core (NestJS exception types). -/
inductive Err where
  | unauthorized : String → Err
  | conflict : String → Err
  | internal : String → Err
  | notFound : String → Err
deriving DecidableEq, Repr

/-- Environment configuration read through `ConfigService`.  `JWT_SECRET` and
`JWT_REFRESH_SECRET` are present (both strategies fail at startup otherwise);
`JWT_ACCESS_SECRET` is only ever read inside `AuthService.refreshToken` and
may be absent.  The ttl values model `JWT_ACCESS_TOKEN_EXPIRES_IN` and
`JWT_REFRESH_TOKEN_EXPIRES_IN`; `maxUsers` models `MAX_ROWS_USERS`.
`BCRYPT_SALT_ROUNDS` only affects hashing cost, not values, and is omitted. -/
structure Config where
  jwtSecret : String
  jwtRefreshSecret : String
  jwtAccessSecret : Option String
  accessTtl : Nat
  refreshTtl : Nat
  maxUsers : Option Nat
deriving DecidableEq, Repr

/-- A row of the `users` table.  `password_hash` is a non-nullable column;
`current_hashed_refresh_token` is nullable.  `ghostLastRefresh` is ghost
instrumentation, not a column of the source entity: it records the plaintext
refresh token most recently stored through `updateRefreshTokenHash`, so that
the double-hashing invariant can refer to "the token most recently issued". -/
structure UserRec where
  id : String
  email : String
  username : Option String
  password_hash : SVal
  current_hashed_refresh_token : Option SVal
  ghostLastRefresh : Option SVal
deriving DecidableEq, Repr

/-- The shared persistence state plus the fresh-value supply (`ctr`, modelling
`crypto.randomBytes` and uuid/salt generation) and the current time `now`. -/
structure DbState where
  users : List UserRec
  ctr : Nat
  now : Nat
deriving DecidableEq, Repr

/-- Draw a fresh value from the counter. -/
def fresh (st : DbState) : Nat × DbState :=
  (st.ctr, { st with ctr := st.ctr + 1 })

/-- Default (sanitized) read of a user: `password_hash` and
`current_hashed_refresh_token` are `select: false` columns and are excluded. -/
structure UserPublic where
  id : String
  email : String
  username : Option String
deriving DecidableEq, Repr

/-- Projection of a row onto the default read. -/
def UserRec.publicView (u : UserRec) : UserPublic :=
  ⟨u.id, u.email, u.username⟩

/-- Read including `password_hash` (query with `addSelect('user.password_hash')`). -/
structure UserWithPw where
  id : String
  email : String
  username : Option String
  password_hash : SVal
deriving DecidableEq, Repr

/-- Read including `current_hashed_refresh_token`
(query with `addSelect('user.current_hashed_refresh_token')`). -/
structure UserWithRt where
  id : String
  email : String
  username : Option String
  current_hashed_refresh_token : Option SVal
deriving DecidableEq, Repr

/-- `UsersService.findByEmail` (default read; only existence is used by callers). -/
def findByEmail (st : DbState) (email : String) : Option UserPublic :=
  (st.users.find? (fun u => u.email == email)).map UserRec.publicView

/-- `UsersService.findByUsername`; returns `null` for a falsy username. -/
def findByUsername (st : DbState) (username : String) : Option UserPublic :=
  if username = "" then none
  else (st.users.find? (fun u => u.username == some username)).map UserRec.publicView

/-- `UsersService.findById` (default read: no secret columns). -/
def findById (st : DbState) (id : String) : Option UserPublic :=
  (st.users.find? (fun u => u.id == id)).map UserRec.publicView

/-- `UsersService.findByEmailWithPassword`. -/
def findByEmailWithPassword (st : DbState) (email : String) : Option UserWithPw :=
  (st.users.find? (fun u => u.email == email)).map
    (fun u => ⟨u.id, u.email, u.username, u.password_hash⟩)

/-- `UsersService.findUserWithRefreshToken`. -/
def findUserWithRefreshToken (st : DbState) (userId : String) : Option UserWithRt :=
  (st.users.find? (fun u => u.id == userId)).map
    (fun u => ⟨u.id, u.email, u.username, u.current_hashed_refresh_token⟩)

/-- Overwrite the stored fingerprint (and the ghost record of the plaintext
token it fingerprints) of the user with the given id. -/
def setFingerprint (st : DbState) (userId : String) (v ghost : Option SVal) : DbState :=
  { st with users := st.users.map (fun u =>
      if u.id = userId then
        { u with current_hashed_refresh_token := v, ghostLastRefresh := ghost }
      else u) }

/-- `UsersService.update` restricted to the `current_hashed_refresh_token`
partial (the only update the auth core performs): `NotFound` when no user has
the given id, otherwise the field is overwritten. -/
def usersUpdateRt (st : DbState) (userId : String) (v ghost : Option SVal) :
    DbState × Except Err Unit :=
  if st.users.any (fun u => u.id == userId) then
    (setFingerprint st userId v ghost, Except.ok ())
  else
    (st, Except.error (Err.notFound "User not found"))

/-- `AuthService.updateRefreshTokenHash`: with a token, store
`bcrypt(sha256(token))` (fresh salt); with `null`, clear the field.
Errors from the store are re-thrown. -/
def updateRefreshTokenHash (st : DbState) (userId : String) (rt : Option SVal) :
    DbState × Except Err Unit :=
  match rt with
  | some t =>
      let p := fresh st
      usersUpdateRt p.2 userId (some (SVal.bcrypt p.1 (SVal.sha256 t))) (some t)
  | none => usersUpdateRt st userId none none

/-- Model of `jwtService.sign(payload, ...)`: when the per-call `secret` option
is absent, nest's JwtService falls back to the module-level secret, which
`auth.module.ts` registers as `JWT_SECRET`. -/
def jwtSign (cfg : Config) (p : Payload) (secretOpt : Option String) : SVal :=
  SVal.jwt p (secretOpt.getD cfg.jwtSecret)

/-- Model of passport-jwt verification (`ignoreExpiration: false`): the token
must be signed with the expected secret and not yet expired. -/
def jwtVerify (secret : String) (now : Nat) (t : SVal) : Option Payload :=
  match t with
  | SVal.jwt p s => if s = secret ∧ now < p.exp then some p else none
  | _ => none

/-- Registration input (`RegisterUserDto`): email, password, optional username. -/
structure RegisterDto where
  email : String
  password : String
  username : Option String
deriving DecidableEq, Repr

/-- `UsersService.create` (capacity check then persistence) inlined with the
password-hashing tail of `AuthService.register`: hash the password with a
fresh salt, enforce `MAX_ROWS_USERS` when configured, generate a uuid,
persist the row with a null refresh fingerprint. -/
def registerCreate (cfg : Config) (st : DbState) (dto : RegisterDto) :
    DbState × Except Err UserPublic :=
  let ph := fresh st
  let pwHash := SVal.bcrypt ph.1 (SVal.lit dto.password)
  let overCap :=
    match cfg.maxUsers with
    | some m => decide (m ≤ ph.2.users.length)
    | none => false
  if overCap then
    (ph.2, Except.error (Err.conflict
      "User registration limit reached. Cannot create new users at this time."))
  else
    let idp := fresh ph.2
    let uid := "user-" ++ toString idp.1
    let newUser : UserRec := ⟨uid, dto.email, dto.username, pwHash, none, none⟩
    ({ idp.2 with users := idp.2.users ++ [newUser] },
     Except.ok ⟨uid, dto.email, dto.username⟩)

/-- `AuthService.register`: uniqueness of email, then (when supplied) of
username, then hash-and-create; the returned view strips `password_hash` and
`current_hashed_refresh_token`. -/
def register (cfg : Config) (st : DbState) (dto : RegisterDto) :
    DbState × Except Err UserPublic :=
  if (findByEmail st dto.email).isSome then
    (st, Except.error (Err.conflict "User with this email already exists."))
  else
    match dto.username with
    | some un =>
        if (findByUsername st un).isSome then
          (st, Except.error (Err.conflict "User with this username already exists."))
        else registerCreate cfg st dto
    | none => registerCreate cfg st dto

/-- Result of a successful login. -/
structure LoginResult where
  accessToken : SVal
  refreshToken : SVal
  user : UserPublic
deriving DecidableEq, Repr

/-- `AuthService.login`: look the user up with `password_hash` included,
verify the password with bcrypt, sign an access token (config key
`JWT_SECRET`) and a refresh token (config key `JWT_REFRESH_SECRET`) each with
a fresh jti, persist the refresh fingerprint, return the sanitized view. -/
def login (cfg : Config) (st : DbState) (email password : String) :
    DbState × Except Err LoginResult :=
  match findByEmailWithPassword st email with
  | none => (st, Except.error (Err.unauthorized "Invalid credentials. User not found."))
  | some u =>
      if bcryptCompare (SVal.lit password) u.password_hash then
        let j1 := fresh st
        let accessToken :=
          jwtSign cfg ⟨u.id, u.email, j1.1, st.now + cfg.accessTtl⟩ (some cfg.jwtSecret)
        let j2 := fresh j1.2
        let refreshTok :=
          jwtSign cfg ⟨u.id, u.email, j2.1, st.now + cfg.refreshTtl⟩ (some cfg.jwtRefreshSecret)
        let upd := updateRefreshTokenHash j2.2 u.id (some refreshTok)
        match upd.2 with
        | Except.ok _ =>
            (upd.1, Except.ok ⟨accessToken, refreshTok, ⟨u.id, u.email, u.username⟩⟩)
        | Except.error e => (upd.1, Except.error e)
      else
        (st, Except.error (Err.unauthorized "Invalid credentials. Password does not match."))

/-- Result of a successful refresh. -/
structure RefreshResult where
  accessToken : SVal
  refreshToken : SVal
deriving DecidableEq, Repr

/-- `AuthService.refreshToken`: load the user with the fingerprint included;
fail when absent; compare `sha256(provided)` against the stored fingerprint
with bcrypt; on mismatch wipe the fingerprint and fail `Unauthorized`; on
match sign a new pair — the access token with config key `JWT_ACCESS_SECRET`
(note: not the `JWT_SECRET` key used by `login`), the refresh token with
`JWT_REFRESH_SECRET` — and persist the rotated fingerprint. -/
def refreshToken (cfg : Config) (st : DbState) (userId : String) (provided : SVal) :
    DbState × Except Err RefreshResult :=
  match findUserWithRefreshToken st userId with
  | none => (st, Except.error (Err.unauthorized "User not found or session invalidated."))
  | some u =>
      match u.current_hashed_refresh_token with
      | none =>
          (st, Except.error (Err.unauthorized "Session invalidated. No refresh token on record."))
      | some storedFp =>
          if bcryptCompare (SVal.sha256 provided) storedFp then
            let j1 := fresh st
            let newAccess :=
              jwtSign cfg ⟨u.id, u.email, j1.1, st.now + cfg.accessTtl⟩ cfg.jwtAccessSecret
            let j2 := fresh j1.2
            let newRefresh :=
              jwtSign cfg ⟨u.id, u.email, j2.1, st.now + cfg.refreshTtl⟩
                (some cfg.jwtRefreshSecret)
            let upd := updateRefreshTokenHash j2.2 u.id (some newRefresh)
            match upd.2 with
            | Except.ok _ => (upd.1, Except.ok ⟨newAccess, newRefresh⟩)
            | Except.error _ =>
                (upd.1, Except.error (Err.internal "Failed to complete token refresh process."))
          else
            let upd := updateRefreshTokenHash st userId none
            match upd.2 with
            | Except.ok _ => (upd.1, Except.error (Err.unauthorized "Invalid refresh token."))
            | Except.error e => (upd.1, Except.error e)

/-- `AuthService.logout`: unconditionally clear the fingerprint; any store
error surfaces as `Internal`. -/
def logout (st : DbState) (userId : String) : DbState × Except Err String :=
  let upd := updateRefreshTokenHash st userId none
  match upd.2 with
  | Except.ok _ => (upd.1, Except.ok "Logout successful.")
  | Except.error _ =>
      (upd.1, Except.error (Err.internal "Logout failed due to a server error."))

/-- `JwtAuthGuard` plus `JwtStrategy.validate` (the access verifier): verify
signature and expiry against `JWT_SECRET`, then load the account by the
token's `sub` with the default (sanitized) read; no write is performed, so
the state is returned unchanged. -/
def verifyAccess (cfg : Config) (st : DbState) (t : SVal) :
    DbState × Except Err UserPublic :=
  match jwtVerify cfg.jwtSecret st.now t with
  | none =>
      (st, Except.error (Err.unauthorized "User is not authenticated or token is invalid"))
  | some p =>
      match findById st p.sub with
      | none => (st, Except.error (Err.unauthorized "User not found or token invalid."))
      | some u => (st, Except.ok u)

/-- `JwtRefreshAuthGuard` plus `JwtRefreshStrategy.validate` (the refresh
guard): verify signature and expiry against `JWT_REFRESH_SECRET`, load the
user with the fingerprint, bcrypt-compare `sha256(token)` against it; every
failure is `Unauthorized` and the guard performs no write at all. -/
def jwtRefreshValidate (cfg : Config) (st : DbState) (t : SVal) : Except Err UserPublic :=
  match jwtVerify cfg.jwtRefreshSecret st.now t with
  | none => Except.error (Err.unauthorized "Invalid or expired refresh token.")
  | some p =>
      match findUserWithRefreshToken st p.sub with
      | none =>
          Except.error (Err.unauthorized "Invalid refresh token or user session not found.")
      | some u =>
          match u.current_hashed_refresh_token with
          | none =>
              Except.error (Err.unauthorized "Invalid refresh token or user session not found.")
          | some storedFp =>
              if bcryptCompare (SVal.sha256 t) storedFp then
                Except.ok ⟨u.id, u.email, u.username⟩
              else Except.error (Err.unauthorized "Refresh token mismatch.")

/-- The public `POST /auth/refresh` endpoint: the refresh guard runs first;
only when it succeeds does `AuthController.refreshTokens` invoke
`AuthService.refreshToken` with the guard-resolved user id and the same
body token. -/
def refreshEndpoint (cfg : Config) (st : DbState) (t : SVal) :
    DbState × Except Err RefreshResult :=
  match jwtRefreshValidate cfg st t with
  | Except.error e => (st, Except.error e)
  | Except.ok u => refreshToken cfg st u.id t

/-- Discriminator for success of an operation result. -/
def isOkE {α : Type} : Except Err α → Bool
  | Except.ok _ => true
  | Except.error _ => false

/-- Equality of operation results is decidable. -/
instance {ε α : Type} [DecidableEq ε] [DecidableEq α] : DecidableEq (Except ε α) := fun x y =>
  match x, y with
  | Except.ok a, Except.ok b =>
      if h : a = b then isTrue (by rw [h]) else isFalse (fun he => h (Except.ok.inj he))
  | Except.error a, Except.error b =>
      if h : a = b then isTrue (by rw [h]) else isFalse (fun he => h (Except.error.inj he))
  | Except.ok _, Except.error _ => isFalse (fun he => Except.noConfusion he)
  | Except.error _, Except.ok _ => isFalse (fun he => Except.noConfusion he)

/-! ### The double-hashing invariant and reachability -/

/-- The double-hashing shape constraint over a list of rows: a non-null
stored fingerprint is always the bcrypt hash (under some salt) of the SHA-256
digest of the plaintext refresh token recorded by the ghost field — never the
plaintext token, never the bare digest. -/
def fpInvU (users : List UserRec) : Prop :=
  ∀ u ∈ users, ∀ h, u.current_hashed_refresh_token = some h →
    ∃ salt rt, u.ghostLastRefresh = some rt ∧ h = SVal.bcrypt salt (SVal.sha256 rt)

/-- The double-hashing invariant on a state. -/
def fpInv (st : DbState) : Prop := fpInvU st.users

/-- States reachable from an empty store by the operations of the core. -/
inductive Reachable (cfg : Config) : DbState → Prop where
  | init : ∀ ctr now, Reachable cfg ⟨[], ctr, now⟩
  | step_register : ∀ st dto, Reachable cfg st → Reachable cfg (register cfg st dto).1
  | step_login : ∀ st e p, Reachable cfg st → Reachable cfg (login cfg st e p).1
  | step_refresh : ∀ st uid t, Reachable cfg st →
      Reachable cfg (refreshToken cfg st uid t).1
  | step_refresh_endpoint : ∀ st t, Reachable cfg st →
      Reachable cfg (refreshEndpoint cfg st t).1
  | step_logout : ∀ st uid, Reachable cfg st → Reachable cfg (logout st uid).1

/-- Two states agreeing on the fresh counter, the clock, and the sanitized
projection of every row (ids, emails, usernames) — they may differ freely in
stored fingerprints and password hashes, the `select: false` columns. -/
def eqSanitized (st st2 : DbState) : Prop :=
  st.users.map UserRec.publicView = st2.users.map UserRec.publicView ∧
  st.ctr = st2.ctr ∧ st.now = st2.now

/-! ### Concrete scenario

The scenario of spec §8: register `("a@x.com","Secret123!","alice")`, log in,
rotate once through the public endpoint, then replay the stale token.  The
configuration gives every secret class its own value, including
`JWT_ACCESS_SECRET`. -/

/-- Example configuration: distinct secrets per class, positive ttls. -/
def cfgEx : Config := ⟨"S", "R", some "A", 900, 604800, none⟩

/-- Initial empty state. -/
def stEx0 : DbState := ⟨[], 0, 0⟩

/-- State after registering alice. -/
def stEx1 : DbState := (register cfgEx stEx0 ⟨"a@x.com", "Secret123!", some "alice"⟩).1

/-- The login call. -/
def loginEx : DbState × Except Err LoginResult := login cfgEx stEx1 "a@x.com" "Secret123!"

/-- State after alice logged in. -/
def stEx2 : DbState := loginEx.1

/-- The access token A1 returned by the login. -/
def tokA1 : SVal := SVal.jwt ⟨"user-1", "a@x.com", 2, 900⟩ "S"

/-- The refresh token R1 returned by the login. -/
def tokR1 : SVal := SVal.jwt ⟨"user-1", "a@x.com", 3, 604800⟩ "R"

/-- The first (successful) call of the public refresh endpoint, with R1. -/
def rotEx : DbState × Except Err RefreshResult := refreshEndpoint cfgEx stEx2 tokR1

/-- State after the rotation. -/
def stEx3 : DbState := rotEx.1

/-- The access token A2 returned by the rotation (signed with the
`JWT_ACCESS_SECRET` value, not the `JWT_SECRET` one). -/
def tokA2 : SVal := SVal.jwt ⟨"user-1", "a@x.com", 5, 900⟩ "A"

/-- The refresh token R2 returned by the rotation. -/
def tokR2 : SVal := SVal.jwt ⟨"user-1", "a@x.com", 6, 604800⟩ "R"

/-! ### Helper lemmas -/

/-- A successful fingerprint-inclusive lookup guarantees the row exists, so
`UsersService.update` will find it. -/
theorem any_id_of_findRt {st : DbState} {uid : String} {u : UserWithRt}
    (h : findUserWithRefreshToken st uid = some u) :
    st.users.any (fun v => v.id == uid) = true := by
  unfold findUserWithRefreshToken at h
  cases hf : st.users.find? (fun v => v.id == uid) with
  | none => rw [hf] at h; simp at h
  | some w =>
      have hmem := List.mem_of_find?_eq_some hf
      have hpred := List.find?_some hf
      exact List.any_eq_true.mpr ⟨w, hmem, hpred⟩

/-- After `setFingerprint`, every row with the targeted id carries the new
fingerprint value. -/
theorem setFingerprint_mem_id {st : DbState} {uid : String} {a g : Option SVal}
    {v : UserRec} (hv : v ∈ (setFingerprint st uid a g).users) (hid : v.id = uid) :
    v.current_hashed_refresh_token = a := by
  unfold setFingerprint at hv
  simp only [List.mem_map] at hv
  obtain ⟨w, _, hw⟩ := hv
  by_cases h : w.id = uid
  · rw [if_pos h] at hw
    rw [← hw]
  · rw [if_neg h] at hw
    rw [← hw] at hid
    exact absurd hid h

/-- `setFingerprint` does not change which ids exist. -/
theorem setFingerprint_any_id (st : DbState) (uid : String) (a g : Option SVal)
    (x : String) :
    ((setFingerprint st uid a g).users.any (fun v => v.id == x))
      = (st.users.any (fun v => v.id == x)) := by
  unfold setFingerprint
  simp only [List.any_map]
  congr 1
  funext u
  by_cases h : u.id = uid <;> simp [Function.comp, h]

/-- Setting the fingerprint twice to the same value is the same as once. -/
theorem setFingerprint_idem (st : DbState) (uid : String) (a g : Option SVal) :
    setFingerprint (setFingerprint st uid a g) uid a g = setFingerprint st uid a g := by
  unfold setFingerprint
  simp only [List.map_map]
  congr 1
  induction st.users with
  | nil => rfl
  | cons b l ih =>
      simp only [List.map_cons, List.cons.injEq]
      refine ⟨?_, ih⟩
      by_cases h : b.id = uid <;> simp [Function.comp, h]

/-- Searching by id commutes with mapping an id-preserving function. -/
theorem find?_id_map (f : UserRec → UserRec) (hf : ∀ u, (f u).id = u.id)
    (l : List UserRec) (uid : String) :
    (l.map f).find? (fun u => u.id == uid)
      = (l.find? (fun u => u.id == uid)).map f := by
  induction l with
  | nil => rfl
  | cons b l ih =>
      simp only [List.map_cons, List.find?_cons, hf b]
      cases hq : (b.id == uid) with
      | true => rfl
      | false => exact ih

/-- Rewriting fingerprints commutes with the fingerprint-inclusive lookup. -/
theorem findRt_setFingerprint (st : DbState) (x uid : String) (a g : Option SVal) :
    findUserWithRefreshToken (setFingerprint st x a g) uid
      = (findUserWithRefreshToken st uid).map
          (fun u => if u.id = x then ⟨u.id, u.email, u.username, a⟩ else u) := by
  unfold findUserWithRefreshToken setFingerprint
  rw [find?_id_map _ (fun u => by by_cases h : u.id = x <;> simp [h])]
  cases st.users.find? (fun u => u.id == uid) with
  | none => rfl
  | some w =>
      by_cases h : w.id = x <;> simp [h]

/-- The row found by a fingerprint-inclusive lookup has the id searched for. -/
theorem id_of_findRt {st : DbState} {uid : String} {u : UserWithRt}
    (h : findUserWithRefreshToken st uid = some u) : u.id = uid := by
  unfold findUserWithRefreshToken at h
  cases hf : st.users.find? (fun v => v.id == uid) with
  | none => rw [hf] at h; simp at h
  | some w =>
      rw [hf] at h
      have h2 : (⟨w.id, w.email, w.username, w.current_hashed_refresh_token⟩ : UserWithRt) = u := by
        simpa using h
      have hp := List.find?_some hf
      rw [← h2]
      simpa using hp

/-- Clearing the fingerprint of an existing row through the store. -/
theorem updateRt_none_eq {st : DbState} {uid : String}
    (hany : st.users.any (fun v => v.id == uid) = true) :
    updateRefreshTokenHash st uid none
      = (setFingerprint st uid none none, Except.ok ()) := by
  unfold updateRefreshTokenHash usersUpdateRt
  rw [if_pos hany]

/-- Storing a fresh fingerprint for an existing row through the store. -/
theorem updateRt_some_eq {st : DbState} {uid : String} (t : SVal)
    (hany : st.users.any (fun v => v.id == uid) = true) :
    updateRefreshTokenHash st uid (some t)
      = (setFingerprint { st with ctr := st.ctr + 1 } uid
           (some (SVal.bcrypt st.ctr (SVal.sha256 t))) (some t), Except.ok ()) := by
  unfold updateRefreshTokenHash usersUpdateRt fresh
  simp [hany]

/-! ### Invariant preservation lemmas -/

/-- `setFingerprint` preserves the invariant when the written pair has the
double-hashed shape. -/
theorem fpInv_setFingerprint {st : DbState} {uid : String} {a g : Option SVal}
    (hinv : fpInv st)
    (hag : ∀ h, a = some h →
      ∃ salt rt, g = some rt ∧ h = SVal.bcrypt salt (SVal.sha256 rt)) :
    fpInv (setFingerprint st uid a g) := by
  intro u hu h hh
  unfold setFingerprint at hu
  simp only [List.mem_map] at hu
  obtain ⟨w, hw, hwe⟩ := hu
  by_cases hid : w.id = uid
  · rw [if_pos hid] at hwe
    subst hwe
    exact hag h hh
  · rw [if_neg hid] at hwe
    subst hwe
    exact hinv w hw h hh

/-- `UsersService.update` preserves the invariant for admissible writes. -/
theorem fpInv_usersUpdateRt {st : DbState} (uid : String) {a g : Option SVal}
    (hinv : fpInv st)
    (hag : ∀ h, a = some h →
      ∃ salt rt, g = some rt ∧ h = SVal.bcrypt salt (SVal.sha256 rt)) :
    fpInv (usersUpdateRt st uid a g).1 := by
  unfold usersUpdateRt
  split
  · exact fpInv_setFingerprint hinv hag
  · exact hinv

/-- `updateRefreshTokenHash` preserves the invariant: it writes either a
freshly double-hashed fingerprint with its ghost token, or null. -/
theorem fpInv_updateRt (st : DbState) (uid : String) (rt : Option SVal)
    (hinv : fpInv st) : fpInv (updateRefreshTokenHash st uid rt).1 := by
  cases rt with
  | some t =>
      unfold updateRefreshTokenHash
      exact fpInv_usersUpdateRt uid hinv
        (fun h hh => ⟨st.ctr, t, rfl, (Option.some.injEq _ _).mp hh.symm⟩)
  | none =>
      unfold updateRefreshTokenHash
      exact fpInv_usersUpdateRt uid hinv (fun h hh => by cases hh)

/-- Appending a row with a null fingerprint preserves the invariant. -/
theorem fpInvU_append {l : List UserRec} (hinv : fpInvU l) (u : UserRec)
    (hu : u.current_hashed_refresh_token = none) : fpInvU (l ++ [u]) := by
  intro v hv h hh
  rcases List.mem_append.mp hv with hvl | hvr
  · exact hinv v hvl h hh
  · simp only [List.mem_singleton] at hvr
    subst hvr
    rw [hu] at hh
    cases hh

/-- `register` preserves the invariant. -/
theorem fpInv_register (cfg : Config) (st : DbState) (dto : RegisterDto)
    (hinv : fpInv st) : fpInv (register cfg st dto).1 := by
  have hcreate : fpInv (registerCreate cfg st dto).1 := by
    simp only [registerCreate]
    split
    · exact hinv
    · exact fpInvU_append hinv _ rfl
  simp only [register]
  split
  · exact hinv
  · split
    · split
      · exact hinv
      · exact hcreate
    · exact hcreate

/-- `login` preserves the invariant. -/
theorem fpInv_login (cfg : Config) (st : DbState) (e p : String)
    (hinv : fpInv st) : fpInv (login cfg st e p).1 := by
  simp only [login]
  split
  · exact hinv
  · split
    · split
      · exact fpInv_updateRt _ _ _ hinv
      · exact fpInv_updateRt _ _ _ hinv
    · exact hinv

/-- `AuthService.refreshToken` preserves the invariant on every path,
including the mismatch wipe. -/
theorem fpInv_refreshToken (cfg : Config) (st : DbState) (uid : String) (t : SVal)
    (hinv : fpInv st) : fpInv (refreshToken cfg st uid t).1 := by
  simp only [refreshToken]
  split
  · exact hinv
  · split
    · exact hinv
    · split
      · split
        · exact fpInv_updateRt _ _ _ hinv
        · exact fpInv_updateRt _ _ _ hinv
      · split
        · exact fpInv_updateRt _ _ _ hinv
        · exact fpInv_updateRt _ _ _ hinv

/-- `logout` preserves the invariant. -/
theorem fpInv_logout (st : DbState) (uid : String) (hinv : fpInv st) :
    fpInv (logout st uid).1 := by
  simp only [logout]
  split
  · exact fpInv_updateRt _ _ _ hinv
  · exact fpInv_updateRt _ _ _ hinv

/-- The refresh endpoint preserves the invariant. -/
theorem fpInv_refreshEndpoint (cfg : Config) (st : DbState) (t : SVal)
    (hinv : fpInv st) : fpInv (refreshEndpoint cfg st t).1 := by
  simp only [refreshEndpoint]
  split
  · exact hinv
  · exact fpInv_refreshToken _ _ _ _ hinv

/-! ### Claim theorems -/

/-- Claim C2: in `AuthService.refreshToken`, for an account whose stored
fingerprint is non-null, when the bcrypt verification of the SHA-256 digest
of the presented token fails, the service persists a null fingerprint
through the credential store and then fails `Unauthorized` — an error path
that deliberately mutates state. -/
theorem refresh_mismatch_wipes_fingerprint (cfg : Config) (st : DbState)
    (uid : String) (t : SVal) (u : UserWithRt) (fp : SVal)
    (hfind : findUserWithRefreshToken st uid = some u)
    (hfp : u.current_hashed_refresh_token = some fp)
    (hcmp : bcryptCompare (SVal.sha256 t) fp = false) :
    refreshToken cfg st uid t
      = (setFingerprint st uid none none,
         Except.error (Err.unauthorized "Invalid refresh token.")) ∧
    ∀ v ∈ (refreshToken cfg st uid t).1.users, v.id = uid →
      v.current_hashed_refresh_token = none := by
  have hany := any_id_of_findRt hfind
  have heq : refreshToken cfg st uid t
      = (setFingerprint st uid none none,
         Except.error (Err.unauthorized "Invalid refresh token.")) := by
    simp only [refreshToken, hfind, hfp, hcmp, updateRt_none_eq hany]
    simp
  refine ⟨heq, ?_⟩
  rw [heq]
  intro v hv hid
  exact setFingerprint_mem_id hv hid

/-- Claim C2 witness: the stale-token replay on the concrete scenario, sent
straight to the service, wipes alice's fingerprint and fails Unauthorized. -/
theorem refresh_mismatch_wipes_fingerprint_witness :
    findUserWithRefreshToken stEx2 "user-1"
        = some ⟨"user-1", "a@x.com", some "alice",
                some (SVal.bcrypt 4 (SVal.sha256 tokR1))⟩ ∧
    bcryptCompare (SVal.sha256 (SVal.lit "bogus"))
        (SVal.bcrypt 4 (SVal.sha256 tokR1)) = false ∧
    refreshToken cfgEx stEx2 "user-1" (SVal.lit "bogus")
      = (setFingerprint stEx2 "user-1" none none,
         Except.error (Err.unauthorized "Invalid refresh token.")) :=
  ⟨by decide, by decide,
   (refresh_mismatch_wipes_fingerprint cfgEx stEx2 "user-1" (SVal.lit "bogus")
      ⟨"user-1", "a@x.com", some "alice", some (SVal.bcrypt 4 (SVal.sha256 tokR1))⟩
      (SVal.bcrypt 4 (SVal.sha256 tokR1))
      (by decide) (by decide) (by decide)).1⟩

/-- Claim C5 counterexample: the two `Unauthorized` login failures are
distinguishable by the caller — the user-not-found failure and the
password-mismatch failure carry different messages, refuting protocol-level
indistinguishability. -/
theorem login_error_messages_cex :
    (login cfgEx stEx1 "b@x.com" "pw").2
        = Except.error (Err.unauthorized "Invalid credentials. User not found.") ∧
    (login cfgEx stEx1 "a@x.com" "wrong").2
        = Except.error (Err.unauthorized "Invalid credentials. Password does not match.") ∧
    Err.unauthorized "Invalid credentials. User not found."
        ≠ Err.unauthorized "Invalid credentials. Password does not match." :=
  ⟨by decide, by decide, by decide⟩

/-- Claim C5 (amended): both login failures surface as the `Unauthorized`
error class, but each carries its own fixed message ("User not found" vs
"Password does not match"), so the caller can tell them apart by message even
though the class (and hence the HTTP status) is identical. -/
theorem login_unauthorized_distinct_messages (cfg cfg2 : Config)
    (st st2 : DbState) (e e2 p p2 : String) (u : UserWithPw)
    (hnone : findByEmailWithPassword st e = none)
    (hsome : findByEmailWithPassword st2 e2 = some u)
    (hcmp : bcryptCompare (SVal.lit p2) u.password_hash = false) :
    (login cfg st e p).2
        = Except.error (Err.unauthorized "Invalid credentials. User not found.") ∧
    (login cfg2 st2 e2 p2).2
        = Except.error (Err.unauthorized "Invalid credentials. Password does not match.") := by
  constructor
  · simp only [login, hnone]
  · simp only [login, hsome, hcmp]
    simp

/-- Claim C5 witness: the amended statement at the concrete scenario. -/
theorem login_unauthorized_distinct_messages_witness :
    findByEmailWithPassword stEx1 "b@x.com" = none ∧
    (login cfgEx stEx1 "b@x.com" "pw").2
        = Except.error (Err.unauthorized "Invalid credentials. User not found.") ∧
    (login cfgEx stEx1 "a@x.com" "wrong").2
        = Except.error (Err.unauthorized "Invalid credentials. Password does not match.") := by
  refine ⟨by decide, ?_, ?_⟩
  · exact (login_unauthorized_distinct_messages cfgEx cfgEx stEx1 stEx1 "b@x.com" "a@x.com"
      "pw" "wrong" ⟨"user-1", "a@x.com", some "alice", SVal.bcrypt 0 (SVal.lit "Secret123!")⟩
      (by decide) (by decide) (by decide)).1
  · exact (login_unauthorized_distinct_messages cfgEx cfgEx stEx1 stEx1 "b@x.com" "a@x.com"
      "pw" "wrong" ⟨"user-1", "a@x.com", some "alice", SVal.bcrypt 0 (SVal.lit "Secret123!")⟩
      (by decide) (by decide) (by decide)).2

/-- Claim C6: for an existing account, `logout` unconditionally nulls the
stored fingerprint and returns the success message; run twice in a row the
second call succeeds identically and the state is unchanged by it. -/
theorem logout_idempotent (st : DbState) (uid : String)
    (hexists : st.users.any (fun v => v.id == uid) = true) :
    logout st uid = (setFingerprint st uid none none, Except.ok "Logout successful.") ∧
    (∀ v ∈ (logout st uid).1.users, v.id = uid →
      v.current_hashed_refresh_token = none) ∧
    logout (logout st uid).1 uid = ((logout st uid).1, Except.ok "Logout successful.") := by
  have h1 : logout st uid
      = (setFingerprint st uid none none, Except.ok "Logout successful.") := by
    simp only [logout, updateRt_none_eq hexists]
  have hany2 : (setFingerprint st uid none none).users.any (fun v => v.id == uid) = true := by
    rw [setFingerprint_any_id]
    exact hexists
  refine ⟨h1, ?_, ?_⟩
  · rw [h1]
    intro v hv hid
    exact setFingerprint_mem_id hv hid
  · rw [h1]
    simp only [logout, updateRt_none_eq hany2, setFingerprint_idem]

/-- Claim C6 witness: logging alice out twice on the concrete scenario. -/
theorem logout_idempotent_witness :
    (stEx3.users.any (fun v => v.id == "user-1")) = true ∧
    logout stEx3 "user-1"
      = (setFingerprint stEx3 "user-1" none none, Except.ok "Logout successful.") ∧
    logout (logout stEx3 "user-1").1 "user-1"
      = ((logout stEx3 "user-1").1, Except.ok "Logout successful.") :=
  ⟨by decide,
   (logout_idempotent stEx3 "user-1" (by decide)).1,
   (logout_idempotent stEx3 "user-1" (by decide)).2.2⟩

/-- Claim C7: a registration whose email is already taken fails `Conflict`
whatever the username, with the state returned exactly as it was — the
password is never hashed (the fresh-value counter is untouched) and no
account is appended; likewise when only the username is taken. -/
theorem register_conflict_state_unchanged (cfg : Config) (st : DbState)
    (dto : RegisterDto) :
    (∀ u, findByEmail st dto.email = some u →
      register cfg st dto
        = (st, Except.error (Err.conflict "User with this email already exists."))) ∧
    (∀ un u2, findByEmail st dto.email = none → dto.username = some un →
      findByUsername st un = some u2 →
      register cfg st dto
        = (st, Except.error (Err.conflict "User with this username already exists."))) := by
  constructor
  · intro u hu
    simp only [register, hu]
    simp
  · intro un u2 hnone hun hu2
    simp only [register, hnone, hun, hu2]
    simp

/-- Claim C7 witness: re-registering alice's email (with a different
username) fails Conflict and leaves the state untouched. -/
theorem register_conflict_state_unchanged_witness :
    findByEmail stEx1 "a@x.com" = some ⟨"user-1", "a@x.com", some "alice"⟩ ∧
    register cfgEx stEx1 ⟨"a@x.com", "Other123!", some "bob"⟩
      = (stEx1, Except.error (Err.conflict "User with this email already exists.")) :=
  ⟨by decide,
   (register_conflict_state_unchanged cfgEx stEx1 ⟨"a@x.com", "Other123!", some "bob"⟩).1
     ⟨"user-1", "a@x.com", some "alice"⟩ (by decide)⟩

/-- Claim C8: a successful registration returns only the sanitized view (id,
email, username — no password hash, no fingerprint field), appends exactly
one row whose stored fingerprint is null (no refresh session until login),
and issues no tokens (the result carries none and the only state change is
the appended row plus the fresh-value counter). -/
theorem register_success_sanitized (cfg : Config) (st : DbState)
    (dto : RegisterDto) (stAfter : DbState) (v : UserPublic)
    (hreg : register cfg st dto = (stAfter, Except.ok v)) :
    v = ⟨"user-" ++ toString (st.ctr + 1), dto.email, dto.username⟩ ∧
    stAfter.users = st.users ++
      [⟨"user-" ++ toString (st.ctr + 1), dto.email, dto.username,
        SVal.bcrypt st.ctr (SVal.lit dto.password), none, none⟩] := by
  have hcreate : ∀ hr : registerCreate cfg st dto = (stAfter, Except.ok v),
      v = ⟨"user-" ++ toString (st.ctr + 1), dto.email, dto.username⟩ ∧
      stAfter.users = st.users ++
        [⟨"user-" ++ toString (st.ctr + 1), dto.email, dto.username,
          SVal.bcrypt st.ctr (SVal.lit dto.password), none, none⟩] := by
    intro hr
    simp only [registerCreate, fresh] at hr
    split at hr
    · exact absurd (congrArg Prod.snd hr) (by simp)
    · have h1 := congrArg Prod.fst hr
      have h2 := congrArg Prod.snd hr
      simp only [] at h1 h2
      have hv : (⟨"user-" ++ toString (st.ctr + 1), dto.email, dto.username⟩ : UserPublic) = v := by
        simpa using h2
      constructor
      · exact hv.symm
      · rw [← h1]
  simp only [register] at hreg
  split at hreg
  · exact absurd (congrArg Prod.snd hreg) (by simp)
  · split at hreg
    · split at hreg
      · exact absurd (congrArg Prod.snd hreg) (by simp)
      · exact hcreate hreg
    · exact hcreate hreg

/-- Two lists of rows that agree on their sanitized projections give the same
sanitized result when searched by id: the search predicate and the returned
view both factor through the projection. -/
theorem find?_publicView_congr (i : String) :
    ∀ (l l2 : List UserRec),
      l.map UserRec.publicView = l2.map UserRec.publicView →
      (l.find? (fun u => u.id == i)).map UserRec.publicView
        = (l2.find? (fun u => u.id == i)).map UserRec.publicView := by
  intro l
  induction l with
  | nil =>
      intro l2 h
      cases l2 with
      | nil => rfl
      | cons b l2 => simp at h
  | cons a l ih =>
      intro l2 h
      cases l2 with
      | nil => simp at h
      | cons b l2 =>
          simp only [List.map_cons, List.cons.injEq] at h
          obtain ⟨h1, h2⟩ := h
          have hid : a.id = b.id := congrArg UserPublic.id h1
          simp only [List.find?_cons]
          cases hp : (a.id == i) with
          | true =>
              have hpb : (b.id == i) = true := by rw [← hid]; exact hp
              rw [hpb]
              simpa using h1
          | false =>
              have hpb : (b.id == i) = false := by rw [← hid]; exact hp
              rw [hpb]
              exact ih l2 h2

/-- Sanitized-view agreement transfers `findById`, which reads only the
sanitized projection of the store. -/
theorem findById_congr {st st2 : DbState} (h : eqSanitized st st2) (i : String) :
    findById st i = findById st2 i := by
  obtain ⟨hu, -, -⟩ := h
  unfold findById
  exact find?_publicView_congr i st.users st2.users hu

/-- Claim C9: the access-verifier path (`JwtAuthGuard` then
`JwtStrategy.validate`) never writes any state, and its visible result is
identical on any two states that agree on the sanitized projection of every
account — in particular it neither reads nor writes any stored refresh
fingerprint, because the lookup it performs is the default read that
excludes that column. -/
theorem verify_access_frame_condition (cfg : Config) (st : DbState) (t : SVal) :
    (verifyAccess cfg st t).1 = st ∧
    (∀ st2, eqSanitized st st2 →
      (verifyAccess cfg st t).2 = (verifyAccess cfg st2 t).2) := by
  constructor
  · unfold verifyAccess
    split
    · rfl
    · split <;> rfl
  · intro st2 hs
    have hfind := findById_congr hs
    obtain ⟨-, -, hn⟩ := hs
    unfold verifyAccess
    rw [hn]
    cases hv : jwtVerify cfg.jwtSecret st2.now t with
    | none => rfl
    | some p =>
        dsimp only
        rw [hfind p.sub]
        cases findById st2 p.sub <;> rfl

/-- Claim C9 witness: verifying alice's access token against the logged-in
state and against the same state with her fingerprint erased gives identical
results, and the state component is returned untouched. -/
theorem verify_access_frame_condition_witness :
    (verifyAccess cfgEx stEx2 tokA1).1 = stEx2 ∧
    eqSanitized stEx2 (setFingerprint stEx2 "user-1" none none) ∧
    (verifyAccess cfgEx stEx2 tokA1).2
      = (verifyAccess cfgEx (setFingerprint stEx2 "user-1" none none) tokA1).2 :=
  ⟨(verify_access_frame_condition cfgEx stEx2 tokA1).1,
   ⟨by decide, by decide, by decide⟩,
   (verify_access_frame_condition cfgEx stEx2 tokA1).2 _ ⟨by decide, by decide, by decide⟩⟩

/-- The fingerprint-inclusive lookup only reads the rows, so states with the
same rows agree on it. -/
theorem findRt_users_eq {st st2 : DbState} (h : st.users = st2.users) (uid : String) :
    findUserWithRefreshToken st uid = findUserWithRefreshToken st2 uid := by
  unfold findUserWithRefreshToken
  rw [h]

/-- Inversion of a successful run of the refresh guard: the token verified
against the refresh secret, the user was found with a non-null stored
fingerprint, and the bcrypt comparison of the SHA-256 digest succeeded. -/
theorem jwtRefreshValidate_ok {cfg : Config} {st : DbState} {t : SVal} {w : UserPublic}
    (h : jwtRefreshValidate cfg st t = Except.ok w) :
    ∃ p u1 f1, jwtVerify cfg.jwtRefreshSecret st.now t = some p ∧
      findUserWithRefreshToken st p.sub = some u1 ∧
      u1.current_hashed_refresh_token = some f1 ∧
      bcryptCompare (SVal.sha256 t) f1 = true ∧
      w = ⟨u1.id, u1.email, u1.username⟩ := by
  unfold jwtRefreshValidate at h
  split at h
  next => exact Except.noConfusion h
  next p hv =>
      split at h
      next => exact Except.noConfusion h
      next u1 hf =>
          split at h
          next => exact Except.noConfusion h
          next f1 hfp =>
              split at h
              next hc => exact ⟨p, u1, f1, hv, hf, hfp, hc, (Except.ok.inj h).symm⟩
              next => exact Except.noConfusion h

/-- State shape after a successful rotation: the only change besides the
fresh-value counter is that the rotated account's fingerprint slot is
overwritten with a freshly double-hashed value — never nulled. -/
theorem refreshToken_rotation_state (cfg : Config) (st : DbState) (uid2 : String)
    (t : SVal) (u1 : UserWithRt) (f1 : SVal)
    (hf1 : findUserWithRefreshToken st uid2 = some u1)
    (hfp1 : u1.current_hashed_refresh_token = some f1)
    (hcmp1 : bcryptCompare (SVal.sha256 t) f1 = true) :
    ∃ salt rt, (refreshToken cfg st uid2 t).1
      = setFingerprint { st with ctr := st.ctr + 3 } uid2
          (some (SVal.bcrypt salt (SVal.sha256 rt))) (some rt) := by
  have hany : st.users.any (fun v => v.id == uid2) = true := any_id_of_findRt hf1
  have hany2 : ((fresh (fresh st).2).2).users.any (fun v => v.id == uid2) = true := hany
  have hu1 : u1.id = uid2 := id_of_findRt hf1
  refine ⟨st.ctr + 2,
    jwtSign cfg ⟨uid2, u1.email, st.ctr + 1, st.now + cfg.refreshTtl⟩
      (some cfg.jwtRefreshSecret), ?_⟩
  simp only [refreshToken, hf1, hfp1, hu1]
  rw [if_pos hcmp1]
  rw [updateRt_some_eq _ hany2]
  rfl

/-- Claim C10: the refresh guard runs before `AuthService.refreshToken` and
performs the identical bcrypt comparison; when that comparison fails the
endpoint answers `Unauthorized` with the state — in particular the stored
fingerprint — untouched.  Consequently, along the sequential endpoint
pipeline the service's mismatch-wipe branch is unreachable: the endpoint
never turns a non-null stored fingerprint into null. -/
theorem refresh_guard_precheck :
    (∀ cfg st t p u fp,
      jwtVerify cfg.jwtRefreshSecret st.now t = some p →
      findUserWithRefreshToken st p.sub = some u →
      u.current_hashed_refresh_token = some fp →
      bcryptCompare (SVal.sha256 t) fp = false →
      refreshEndpoint cfg st t
        = (st, Except.error (Err.unauthorized "Refresh token mismatch."))) ∧
    (∀ cfg st t uid u, findUserWithRefreshToken st uid = some u →
      u.current_hashed_refresh_token ≠ none →
      ∃ u2, findUserWithRefreshToken (refreshEndpoint cfg st t).1 uid = some u2 ∧
        u2.current_hashed_refresh_token ≠ none) := by
  constructor
  · intro cfg st t p u fp hv hfind hfp hcmp
    simp only [refreshEndpoint, jwtRefreshValidate, hv, hfind, hfp, hcmp]
    simp
  · intro cfg st t uid u hfind hfp
    cases hg : jwtRefreshValidate cfg st t with
    | error e =>
        simp only [refreshEndpoint, hg]
        exact ⟨u, hfind, hfp⟩
    | ok w =>
        obtain ⟨p, u1, f1, hv, hf1, hfp1, hcmp1, hw⟩ := jwtRefreshValidate_ok hg
        have hid : u1.id = p.sub := id_of_findRt hf1
        have hf2 : findUserWithRefreshToken st u1.id = some u1 := by
          rw [hid]
          exact hf1
        simp only [refreshEndpoint, hg]
        subst hw
        dsimp only
        obtain ⟨salt, rt, hstate⟩ :=
          refreshToken_rotation_state cfg st u1.id t u1 f1 hf2 hfp1 hcmp1
        rw [hstate, findRt_setFingerprint]
        have hrw : findUserWithRefreshToken { st with ctr := st.ctr + 3 } uid
            = findUserWithRefreshToken st uid := rfl
        rw [hrw, hfind]
        simp only [Option.map_some']
        by_cases hux : u.id = u1.id
        · rw [if_pos hux]
          exact ⟨_, rfl, by simp⟩
        · rw [if_neg hux]
          exact ⟨u, rfl, hfp⟩

/-- Claim C10 witness: replaying the stale R1 against the rotated state
through the endpoint fails at the guard with the state unchanged, and the
current fingerprint survives every endpoint call. -/
theorem refresh_guard_precheck_witness :
    refreshEndpoint cfgEx stEx3 tokR1
      = (stEx3, Except.error (Err.unauthorized "Refresh token mismatch.")) ∧
    (∃ u2, findUserWithRefreshToken (refreshEndpoint cfgEx stEx3 tokR1).1 "user-1" = some u2 ∧
      u2.current_hashed_refresh_token ≠ none) :=
  ⟨refresh_guard_precheck.1 cfgEx stEx3 tokR1 ⟨"user-1", "a@x.com", 3, 604800⟩
     ⟨"user-1", "a@x.com", some "alice", some (SVal.bcrypt 7 (SVal.sha256 tokR2))⟩
     (SVal.bcrypt 7 (SVal.sha256 tokR2))
     (by decide) (by decide) (by decide) (by decide),
   refresh_guard_precheck.2 cfgEx stEx3 tokR1 "user-1"
     ⟨"user-1", "a@x.com", some "alice", some (SVal.bcrypt 7 (SVal.sha256 tokR2))⟩
     (by decide) (by decide)⟩

/-- Claim C1 counterexample: on the concrete scenario the rotation did
produce `R2 ≠ R1` and the endpoint call replaying the stale `R1` does fail
`Unauthorized`; but the follow-up call with the current `R2` SUCCEEDS — the
claim's assertion that it also fails `Unauthorized` is false, because the
guard rejected the stale `R1` before the service's wipe could run, leaving
the stored fingerprint intact. -/
theorem stale_refresh_poison_cex :
    tokR2 ≠ tokR1 ∧
    rotEx.2 = Except.ok ⟨tokA2, tokR2⟩ ∧
    refreshEndpoint cfgEx stEx3 tokR1
      = (stEx3, Except.error (Err.unauthorized "Refresh token mismatch.")) ∧
    isOkE (refreshEndpoint cfgEx stEx3 tokR2).2 = true :=
  ⟨by decide, by decide, by decide, by decide⟩

/-- Claim C1 (amended): after a rotation has made `R2` current, presenting
the stale `R1` to the public refresh endpoint fails `Unauthorized` at the
guard with the state — including the stored fingerprint — completely
unchanged, and a subsequent endpoint call presenting the current `R2` still
succeeds; the fingerprint wipe only happens when `AuthService.refreshToken`
itself is reached with a mismatching token, which the guard prevents on the
sequential endpoint pipeline. -/
theorem stale_refresh_guard_poison_amended (cfg : Config) (st : DbState)
    (uid em : String) (un : Option String) (salt : Nat) (r1 r2 : SVal)
    (p1 p2 : Payload)
    (hfind : findUserWithRefreshToken st uid
        = some ⟨uid, em, un, some (SVal.bcrypt salt (SVal.sha256 r2))⟩)
    (hne : r1 ≠ r2)
    (hv1 : jwtVerify cfg.jwtRefreshSecret st.now r1 = some p1) (hs1 : p1.sub = uid)
    (hv2 : jwtVerify cfg.jwtRefreshSecret st.now r2 = some p2) (hs2 : p2.sub = uid) :
    refreshEndpoint cfg st r1
      = (st, Except.error (Err.unauthorized "Refresh token mismatch.")) ∧
    isOkE (refreshEndpoint cfg st r2).2 = true := by
  have hcmp1 : bcryptCompare (SVal.sha256 r1) (SVal.bcrypt salt (SVal.sha256 r2)) = false := by
    simp only [bcryptCompare, decide_eq_false_iff_not, SVal.sha256.injEq]
    exact fun hh => hne hh.symm
  have hcmp2 : bcryptCompare (SVal.sha256 r2) (SVal.bcrypt salt (SVal.sha256 r2)) = true := by
    simp [bcryptCompare]
  have hany : st.users.any (fun v => v.id == uid) = true := any_id_of_findRt hfind
  constructor
  · simp only [refreshEndpoint, jwtRefreshValidate, hv1, hs1, hfind, hcmp1]
    simp
  · simp only [refreshEndpoint, jwtRefreshValidate, refreshToken, hv2, hs2, hfind, hcmp2,
      eq_self_iff_true, if_true]
    have hany2 : ((fresh (fresh st).2).2).users.any (fun v => v.id == uid) = true := hany
    rw [updateRt_some_eq _ hany2]
    simp [isOkE]

/-- Claim C1 witness: the amended statement at the concrete rotated state. -/
theorem stale_refresh_guard_poison_amended_witness :
    findUserWithRefreshToken stEx3 "user-1"
      = some ⟨"user-1", "a@x.com", some "alice", some (SVal.bcrypt 7 (SVal.sha256 tokR2))⟩ ∧
    tokR1 ≠ tokR2 ∧
    (refreshEndpoint cfgEx stEx3 tokR1
       = (stEx3, Except.error (Err.unauthorized "Refresh token mismatch.")) ∧
     isOkE (refreshEndpoint cfgEx stEx3 tokR2).2 = true) :=
  ⟨by decide, by decide,
   stale_refresh_guard_poison_amended cfgEx stEx3 "user-1" "a@x.com" (some "alice") 7
     tokR1 tokR2 ⟨"user-1", "a@x.com", 3, 604800⟩ ⟨"user-1", "a@x.com", 6, 604800⟩
     (by decide) (by decide) (by decide) (by decide) (by decide) (by decide)⟩

/-- Claim C3 (code-bug exhibit): on a configuration where `JWT_ACCESS_SECRET`
is set to a value distinct from `JWT_SECRET`, the access token minted by
`login` (signed with the `JWT_SECRET` key) is accepted by the access
verifier, but the unexpired access token returned by a successful refresh is
signed with the `JWT_ACCESS_SECRET` value and is rejected by the same
verifier — the refresh path reads a different config key than the one the
verifier (and login) use, contradicting the single-access-secret design. -/
theorem refresh_access_token_secret_divergence :
    loginEx.2 = Except.ok ⟨tokA1, tokR1, ⟨"user-1", "a@x.com", some "alice"⟩⟩ ∧
    (verifyAccess cfgEx stEx2 tokA1).2 = Except.ok ⟨"user-1", "a@x.com", some "alice"⟩ ∧
    rotEx.2 = Except.ok ⟨tokA2, tokR2⟩ ∧
    tokA2 = SVal.jwt ⟨"user-1", "a@x.com", 5, 900⟩ "A" ∧
    cfgEx.jwtAccessSecret = some "A" ∧
    cfgEx.jwtSecret = "S" ∧
    stEx3.now < 900 ∧
    (verifyAccess cfgEx stEx3 tokA2).2
      = Except.error (Err.unauthorized "User is not authenticated or token is invalid") :=
  ⟨by decide, by decide, by decide, by decide, by decide, by decide, by decide, by decide⟩

/-- Claim C4: at every reachable state, a non-null stored fingerprint is the
bcrypt hash of the SHA-256 digest of the refresh token most recently stored
for that account (never the plaintext token, never the bare digest); and
whenever a stored fingerprint is present, acceptance of a presented token —
both in `AuthService.refreshToken` and in the refresh guard — is exactly the
bcrypt verification of the token's SHA-256 digest against that fingerprint. -/
theorem fingerprint_double_hashing_invariant :
    (∀ cfg st, Reachable cfg st → fpInv st) ∧
    (∀ cfg st uid t u fp, findUserWithRefreshToken st uid = some u →
        u.current_hashed_refresh_token = some fp →
        isOkE (refreshToken cfg st uid t).2 = bcryptCompare (SVal.sha256 t) fp) ∧
    (∀ cfg st t p u fp, jwtVerify cfg.jwtRefreshSecret st.now t = some p →
        findUserWithRefreshToken st p.sub = some u →
        u.current_hashed_refresh_token = some fp →
        isOkE (jwtRefreshValidate cfg st t) = bcryptCompare (SVal.sha256 t) fp) := by
  refine ⟨?_, ?_, ?_⟩
  · intro cfg st h
    induction h with
    | init ctr now =>
        intro u hu
        exact absurd hu (List.not_mem_nil u)
    | step_register st dto _ ih => exact fpInv_register _ _ _ ih
    | step_login st e p _ ih => exact fpInv_login _ _ _ _ ih
    | step_refresh st uid t _ ih => exact fpInv_refreshToken _ _ _ _ ih
    | step_refresh_endpoint st t _ ih => exact fpInv_refreshEndpoint _ _ _ ih
    | step_logout st uid _ ih => exact fpInv_logout _ _ ih
  · intro cfg st uid t u fp hfind hfp
    have hid : u.id = uid := id_of_findRt hfind
    have hany : st.users.any (fun v => v.id == uid) = true := any_id_of_findRt hfind
    cases hc : bcryptCompare (SVal.sha256 t) fp with
    | true =>
        simp only [refreshToken, hfind, hfp, hid]
        rw [if_pos hc]
        have hany2 : ((fresh (fresh st).2).2).users.any (fun v => v.id == uid) = true := hany
        rw [updateRt_some_eq _ hany2]
        simp [isOkE]
    | false =>
        simp only [refreshToken, hfind, hfp, hid]
        rw [if_neg (by rw [hc]; exact Bool.false_ne_true)]
        rw [updateRt_none_eq hany]
        simp [isOkE]
  · intro cfg st t p u fp hv hfind hfp
    cases hc : bcryptCompare (SVal.sha256 t) fp with
    | true =>
        simp only [jwtRefreshValidate, hv, hfind, hfp]
        rw [if_pos hc]
        simp [isOkE]
    | false =>
        simp only [jwtRefreshValidate, hv, hfind, hfp]
        rw [if_neg (by rw [hc]; exact Bool.false_ne_true)]
        simp [isOkE]

/-- Claim C4 witness: the invariant evaluated at the concrete state reached
by register-then-login, through an explicit reachability derivation. -/
theorem fingerprint_double_hashing_invariant_witness : fpInv stEx2 :=
  fingerprint_double_hashing_invariant.1 cfgEx stEx2
    (Reachable.step_login stEx1 "a@x.com" "Secret123!"
      (Reachable.step_register stEx0 ⟨"a@x.com", "Secret123!", some "alice"⟩
        (Reachable.init 0 0)))

/-- Claim C8 witness: registering alice on the empty store. -/
theorem register_success_sanitized_witness :
    register cfgEx stEx0 ⟨"a@x.com", "Secret123!", some "alice"⟩
      = (stEx1, Except.ok ⟨"user-1", "a@x.com", some "alice"⟩) ∧
    (⟨"user-1", "a@x.com", some "alice"⟩ : UserPublic)
      = ⟨"user-" ++ toString (stEx0.ctr + 1), "a@x.com", some "alice"⟩ ∧
    stEx1.users = stEx0.users ++
      [⟨"user-" ++ toString (stEx0.ctr + 1), "a@x.com", some "alice",
        SVal.bcrypt stEx0.ctr (SVal.lit "Secret123!"), none, none⟩] := by
  refine ⟨by decide, ?_, ?_⟩
  · exact (register_success_sanitized cfgEx stEx0 ⟨"a@x.com", "Secret123!", some "alice"⟩
      stEx1 ⟨"user-1", "a@x.com", some "alice"⟩ (by decide)).1
  · exact (register_success_sanitized cfgEx stEx0 ⟨"a@x.com", "Secret123!", some "alice"⟩
      stEx1 ⟨"user-1", "a@x.com", some "alice"⟩ (by decide)).2

end Auth
